import Mathlib

/-!
Shallow embedding of the EC3 concrete-comparison Streamlit app
(`ec3_app.py`).  Dataframes are lists of rows, numeric cell values are
exact rationals, and the record-conversion loop is a left fold over the
raw records.  Python dictionary values that may be `None`, a string or a
number (the nested plant/owner metadata) are modelled by `PyVal`.
-/

/-- Model of a Python value as found in the nested `plant_or_group`
metadata: `None`, a string, or a number. -/
inductive PyVal where
  | none : PyVal
  | str : String → PyVal
  | intV : Int → PyVal
deriving DecidableEq, Repr

/-- Python truthiness test (`not x`) on a `PyVal`: `None`, the empty
string and the number 0 are falsy. -/
def pyFalsy : PyVal → Bool
  | PyVal.none => true
  | PyVal.str s => s = ""
  | PyVal.intV n => n = 0

/-- Embedding of lines 183-194 of `ec3_app.py`: a raw nested name is
replaced by "Unknown" when it is falsy (`if not plant_owner_name`) or
not a string (`elif not isinstance(plant_owner_name, str)`). -/
def pyDisplay (v : PyVal) : String :=
  if pyFalsy v then "Unknown"
  else
    match v with
    | PyVal.str s => s
    | _ => "Unknown"

/-- Linear-interpolation quantile of a list of rationals, the default
`interpolation="linear"` of `pandas.DataFrame.quantile`: with the values
sorted ascending and `h = q * (n - 1)`, the result interpolates between
the values at positions `⌊h⌋` and `⌊h⌋ + 1`. -/
def quantile (xs : List Rat) (q : Rat) : Rat :=
  let s := List.insertionSort (fun a b => a ≤ b) xs
  let n := s.length
  let h : Rat := q * ((n : Rat) - 1)
  let i : Nat := h.floor.toNat
  let g : Rat := h - (i : Rat)
  s.getD i 0 + g * (s.getD (i + 1) 0 - s.getD i 0)

/-- Embedding of `remove_outliers` (lines 27-37 of `ec3_app.py`).  A
dataframe is a list of rows; the selected columns `df[col_names]` are
given as accessor functions from a row to its rational cell value.  The
code keeps the rows for which no selected column is below
`q1 - 1.5 * iqr` or above `q3 + 1.5 * iqr`
(`df[~((df[col_names] < ...) | (df[col_names] > ...)).any(axis=1)]`),
with the quantiles taken over the input dataframe. -/
def remove_outliers {α : Type} (df : List α) (col_names : List (α → Rat)) : List α :=
  df.filter (fun row =>
    ! (col_names.any (fun col =>
        let q1 := quantile (df.map col) (1/4)
        let q3 := quantile (df.map col) (3/4)
        let iqr := q3 - q1
        decide (col row < q1 - 3/2 * iqr) || decide (col row > q3 + 3/2 * iqr))))

/-- Tail of a Python integer literal after its first digit: digits, with
single underscores allowed only between two digits. -/
def pyDigitsTail : List Char → Bool
  | [] => true
  | '_' :: c :: rest => c.isDigit && pyDigitsTail (c :: rest)
  | c :: rest => c.isDigit && pyDigitsTail rest

/-- Nonempty digit run acceptable to Python `int`, underscores allowed
between digits. -/
def pyDigits : List Char → Bool
  | [] => false
  | c :: rest => c.isDigit && pyDigitsTail rest

/-- Strip leading and trailing whitespace, as Python `int` does before
parsing a string. -/
def pyStrip (cs : List Char) : List Char :=
  ((cs.dropWhile Char.isWhitespace).reverse.dropWhile Char.isWhitespace).reverse

/-- Model of `int(s)` succeeding on a string `s` (no `ValueError`):
optional surrounding whitespace, an optional sign, then a nonempty run
of digits with single underscores allowed between digits. -/
def pyIntAccepts (s : String) : Bool :=
  match pyStrip s.data with
  | '+' :: rest => pyDigits rest
  | '-' :: rest => pyDigits rest
  | cs => pyDigits cs

/-- Embedding of `is_valid_postal_code` (lines 40-47 of `ec3_app.py`):
reject unless the string has exactly 5 characters, then accept exactly
when `int(postal_code)` does not raise `ValueError`. -/
def is_valid_postal_code (postal_code : String) : Bool :=
  if postal_code.length ≠ 5 then false
  else pyIntAccepts postal_code

/-- Raw material record as consumed by the conversion loop (lines
169-212).  The string fields the code parses are modelled already
tokenized: `concrete_compressive_strength_28d.split()` yields the
numeric token `strength_value` and the unit token `strength_unit`, and
`float(rec["gwp"].split()[0])` yields `gwp`.  `owner_name` and
`plant_name` are `rec["plant_or_group"]["owned_by"]["name"]` and
`rec["plant_or_group"]["name"]`; `latitude`/`longitude` are `none` when
the corresponding key is absent (`KeyError`). -/
structure RawRecord where
  strength_value : Rat
  strength_unit : String
  gwp : Rat
  name : String
  owner_name : PyVal
  plant_name : PyVal
  latitude : Option Rat
  longitude : Option Rat
deriving DecidableEq, Repr

/-- Converted record, the dictionary built at lines 205-212. -/
structure ConvRecord where
  compressive_strength_psi : Int
  gwp : Rat
  plant_owner : String
  plant_name : String
  product_name : String
  latitude : Rat
  longitude : Rat
deriving DecidableEq, Repr

/-- The GWP column accessor (dictionary key `GWP [kgCO2e/m³]`). -/
def ConvRecord.gwpCol (r : ConvRecord) : Rat := r.gwp

/-- Conversion factor for megapascal, `mpa_to_psi = 145.03773773`
(line 163). -/
def mpa_to_psi : Rat := 14503773773 / 100000000

/-- Unit dispatch of lines 172-179: MPa and ksi are converted to psi,
an unrecognized unit yields `none` (the loop does `continue`). -/
def convStrength (rec : RawRecord) : Option Rat :=
  if rec.strength_unit = "MPa" then some (rec.strength_value * mpa_to_psi)
  else if rec.strength_unit = "psi" then some rec.strength_value
  else if rec.strength_unit = "ksi" then some (rec.strength_value * 1000)
  else none

/-- Python `round` on an exact value: round half to even. -/
def roundHalfEven (x : Rat) : Int :=
  let f := x.floor
  let frac := x - (f : Rat)
  if frac < 1/2 then f
  else if 1/2 < frac then f + 1
  else if f % 2 = 0 then f else f + 1

/-- Line 181: `rounded_strength = int(round(conc_strength / 500.0) * 500.0)`. -/
def roundedStrength (conc_strength : Rat) : Int :=
  roundHalfEven (conc_strength / 500) * 500

/-- The converted dictionary built for a record that passed every check
(lines 205-212). -/
def convOf (rec : RawRecord) (conc_strength : Rat) (lat lng : Rat) : ConvRecord :=
  { compressive_strength_psi := roundedStrength conc_strength
    gwp := rec.gwp
    plant_owner := pyDisplay rec.owner_name
    plant_name := pyDisplay rec.plant_name
    product_name := rec.name
    latitude := lat
    longitude := lng }

/-- One iteration of the conversion loop (lines 169-212).  The state is
`(converted_records, missing_location_data)`.  An unrecognized unit
skips the record; a record whose plant metadata lacks latitude or
longitude is skipped after a warning, the warning being recorded (and
emitted) only when the plant name is not already in
`missing_location_data`. -/
def step (st : List ConvRecord × List String) (rec : RawRecord) :
    List ConvRecord × List String :=
  match convStrength rec with
  | Option.none => st
  | Option.some conc =>
    let plant := pyDisplay rec.plant_name
    match rec.latitude, rec.longitude with
    | Option.some lat, Option.some lng => (st.1 ++ [convOf rec conc lat lng], st.2)
    | _, _ => if plant ∈ st.2 then st else (st.1, st.2 ++ [plant])

/-- The whole conversion loop: fold `step` over the raw records starting
from empty `converted_records` and `missing_location_data`. -/
def processRecords (mat_records : List RawRecord) :
    List ConvRecord × List String :=
  mat_records.foldl step ([], [])

/-- Outcome of the submitted branch of the app (lines 104-157 and
onward): stop with a warning on an invalid postal code, stop with a
warning when the query returns no records, or render the visualizations
(box plot, `chart_container` dataframe/export tabs, map) from the
outlier-filtered dataframe together with the missing-location warnings
emitted during conversion. -/
inductive Outcome where
  | stoppedInvalidPostal : Outcome
  | stoppedNoRecords : Outcome
  | rendered : List ConvRecord → List String → Outcome
deriving DecidableEq, Repr

/-- Embedding of the submitted branch: the external EC3 query is the
collaborator supplying `mat_records`.  On success the dataframe handed
to every visualization is `remove_outliers` applied to the converted
records with the single column `GWP [kgCO2e/m³]` (lines 214-216). -/
def runApp (postal_code : String) (mat_records : List RawRecord) : Outcome :=
  if ! is_valid_postal_code postal_code then Outcome.stoppedInvalidPostal
  else if mat_records.length = 0 then Outcome.stoppedNoRecords
  else
    let pr := processRecords mat_records
    Outcome.rendered (remove_outliers pr.1 [ConvRecord.gwpCol]) pr.2

/-- Normalized strength exactly as claim C2 words it: all three units
are converted to psi (`c = v * 145.03773773` for MPa, `c = v` for psi,
`c = v * 1000` for ksi) and the result is `int(round(c / 500.0) * 500.0)`.
This definition follows the claim and is compared against the
composition of `convStrength` and `roundedStrength` from the source. -/
def claimC2Strength (v : Rat) (u : String) : Option Int :=
  if u = "MPa" then some (roundHalfEven ((v * (14503773773 / 100000000)) / 500) * 500)
  else if u = "psi" then some (roundHalfEven (v / 500) * 500)
  else if u = "ksi" then some (roundHalfEven ((v * 1000) / 500) * 500)
  else none

/-- Concrete record used by the witness theorems: a 4000 psi mix with
complete metadata. -/
def sampleRec : RawRecord :=
  ⟨4000, "psi", 300, "Mix A", PyVal.str "Acme", PyVal.str "Plant 1", some 40, some (-75)⟩

/-- Concrete record with an unrecognized strength unit. -/
def badUnitRec : RawRecord :=
  ⟨4, "kip", 290, "Mix D", PyVal.str "X", PyVal.str "P", some 1, some 2⟩

/-- Concrete record whose plant metadata lacks a latitude. -/
def noLocRec : RawRecord :=
  ⟨4, "ksi", 290, "Mix C", PyVal.intV 7, PyVal.str "NoLoc", none, some (-74)⟩

/-- C4: `remove_outliers` only removes rows: every output row is an
input row with all its column values unchanged, the surviving rows keep
their relative order, and no rows are added.  This is exactly the
sublist relation between output and input. -/
theorem claim_c4 {α : Type} (df : List α) (col_names : List (α → Rat)) :
    (remove_outliers df col_names).Sublist df := by
  unfold remove_outliers
  exact List.filter_sublist df

/-- C2: for every raw record, composing the unit dispatch with the
rounding of line 181 yields exactly the formula of the claim: convert
MPa by 145.03773773, keep psi, multiply ksi by 1000, then take
`int(round(c / 500.0) * 500.0)`; unrecognized units yield nothing on
both sides. -/
theorem claim_c2 (rec : RawRecord) :
    (convStrength rec).map roundedStrength =
      claimC2Strength rec.strength_value rec.strength_unit := by
  unfold convStrength claimC2Strength roundedStrength mpa_to_psi
  split_ifs <;> rfl

/-- C8: `is_valid_postal_code s` holds exactly when `s` has length 5 and
Python `int(s)` succeeds; every string of another length is rejected,
and some 5-character strings with a non-digit character (a leading sign,
a leading space) are accepted. -/
theorem claim_c8 :
    (∀ s : String, is_valid_postal_code s = true ↔
        (s.length = 5 ∧ pyIntAccepts s = true)) ∧
    is_valid_postal_code "+1234" = true ∧ ('+').isDigit = false ∧
    is_valid_postal_code " 1234" = true ∧ (' ').isDigit = false ∧
    is_valid_postal_code "1234" = false ∧
    is_valid_postal_code "123456" = false := by
  refine ⟨?_, by decide, by decide, by decide, by decide, by decide, by decide⟩
  intro s
  by_cases h : s.length = 5
  · simp [is_valid_postal_code, h]
  · simp [is_valid_postal_code, h]

/-- C1: `remove_outliers df cols` returns exactly the rows of `df` for
which, in every listed column, the value is neither below
`Q1 - 1.5 * IQR` nor above `Q3 + 1.5 * IQR`, with `Q1`/`Q3` the
0.25/0.75 quantiles of that column taken over the input `df` and
`IQR = Q3 - Q1`. -/
theorem claim_c1 {α : Type} (df : List α) (col_names : List (α → Rat)) :
    remove_outliers df col_names = df.filter (fun row => decide (∀ col ∈ col_names,
      quantile (df.map col) (1/4) - 3/2 * (quantile (df.map col) (3/4) - quantile (df.map col) (1/4))
          ≤ col row ∧
      col row ≤ quantile (df.map col) (3/4)
          + 3/2 * (quantile (df.map col) (3/4) - quantile (df.map col) (1/4)))) := by
  unfold remove_outliers
  refine List.filter_congr ?_
  intro row _
  rw [Bool.eq_iff_iff]
  simp [List.any_eq_true, not_or, not_lt]

/-- Helper: every converted record in the fold's output either was
already in the accumulator or arises from some raw record that passed
the unit check and had both coordinates, via `convOf`. -/
theorem mem_foldl_step (recs : List RawRecord) :
    ∀ (st : List ConvRecord × List String) (cr : ConvRecord),
      cr ∈ (List.foldl step st recs).1 →
      cr ∈ st.1 ∨ ∃ r ∈ recs, ∃ conc, convStrength r = some conc ∧
        ∃ lat lng, r.latitude = some lat ∧ r.longitude = some lng ∧
          cr = convOf r conc lat lng := by
  induction recs with
  | nil => intro st cr h; exact Or.inl h
  | cons r rs ih =>
      intro st cr h
      simp only [List.foldl_cons] at h
      rcases ih _ _ h with h1 | ⟨r2, hr2, rest⟩
      · rcases hc : convStrength r with _ | conc
        · rw [step, hc] at h1
          exact Or.inl h1
        · rcases hlat : r.latitude with _ | lat
          · rw [step, hc] at h1
            simp only [hlat] at h1
            split at h1 <;> exact Or.inl h1
          · rcases hlng : r.longitude with _ | lng
            · rw [step, hc] at h1
              simp only [hlat, hlng] at h1
              split at h1 <;> exact Or.inl h1
            · rw [step, hc] at h1
              simp only [hlat, hlng] at h1
              rcases List.mem_append.mp h1 with h2 | h2
              · exact Or.inl h2
              · refine Or.inr ⟨r, List.mem_cons_self r rs, conc, hc, lat, lng, hlat, hlng, ?_⟩
                simpa using h2
      · exact Or.inr ⟨r2, List.mem_cons_of_mem r hr2, rest⟩

/-- C5: every converted record's `Compressive Strength [psi]` value is
an integer multiple of the 500-psi rounding bucket. -/
theorem claim_c5 (mat_records : List RawRecord) (cr : ConvRecord)
    (h : cr ∈ (processRecords mat_records).1) :
    (500 : Int) ∣ cr.compressive_strength_psi := by
  rcases mem_foldl_step mat_records ([], []) cr h with
    h0 | ⟨r, _, conc, _, lat, lng, _, _, hcr⟩
  · simp at h0
  · subst hcr
    exact dvd_mul_left 500 _

/-- Witness for C5 at a concrete 4000 psi record. -/
theorem claim_c5_witness :
    (500 : Int) ∣ (convOf sampleRec 4000 40 (-75)).compressive_strength_psi :=
  claim_c5 [sampleRec] _ (List.mem_singleton.mpr rfl)

/-- C6: every converted record's `Plant_Owner` and `Plant_Name` are the
string derived from the raw nested names, and that derivation keeps a
non-empty string unchanged while mapping any falsy or non-string value
to `"Unknown"`. -/
theorem claim_c6 :
    (∀ (mat_records : List RawRecord) (cr : ConvRecord),
        cr ∈ (processRecords mat_records).1 →
        ∃ r ∈ mat_records,
          cr.plant_owner = pyDisplay r.owner_name ∧
          cr.plant_name = pyDisplay r.plant_name) ∧
    (∀ s : String, s ≠ "" → pyDisplay (PyVal.str s) = s) ∧
    (∀ v : PyVal, (pyFalsy v = true ∨ ∀ s, v ≠ PyVal.str s) →
        pyDisplay v = "Unknown") := by
  refine ⟨?_, ?_, ?_⟩
  · intro recs cr h
    rcases mem_foldl_step recs ([], []) cr h with
      h0 | ⟨r, hr, conc, _, lat, lng, _, _, hcr⟩
    · simp at h0
    · exact ⟨r, hr, by rw [hcr]; rfl, by rw [hcr]; rfl⟩
  · intro s hs
    simp [pyDisplay, pyFalsy, hs]
  · intro v hv
    rcases v with _ | s | n
    · rfl
    · rcases hv with hf | hs
      · simp only [pyFalsy, decide_eq_true_eq] at hf
        simp [pyDisplay, pyFalsy, hf]
      · exact absurd rfl (hs s)
    · simp only [pyDisplay, pyFalsy]
      split <;> rfl

/-- Witness for C6: the sample record's derived names, a kept non-empty
string and a `None` mapped to `"Unknown"`. -/
theorem claim_c6_witness :
    (∃ r ∈ [sampleRec],
        (convOf sampleRec 4000 40 (-75)).plant_owner = pyDisplay r.owner_name ∧
        (convOf sampleRec 4000 40 (-75)).plant_name = pyDisplay r.plant_name) ∧
    pyDisplay (PyVal.str "Acme") = "Acme" ∧
    pyDisplay PyVal.none = "Unknown" :=
  ⟨claim_c6.1 [sampleRec] _ (List.mem_singleton.mpr rfl),
   claim_c6.2.1 "Acme" (by decide),
   claim_c6.2.2 PyVal.none (Or.inl rfl)⟩

/-- C3: whenever the submitted branch runs to completion (valid postal
code, non-empty record set), the dataframe handed to every
visualization is exactly `remove_outliers` applied with the single
column `GWP [kgCO2e/m³]` to the dataframe built from the converted
records, and the filtering happens after unit normalization and
display-field derivation. -/
theorem claim_c3 (postal_code : String) (mat_records : List RawRecord)
    (hp : is_valid_postal_code postal_code = true) (hr : mat_records ≠ []) :
    runApp postal_code mat_records =
      Outcome.rendered
        (remove_outliers (processRecords mat_records).1 [ConvRecord.gwpCol])
        (processRecords mat_records).2 := by
  have h0 : mat_records.length ≠ 0 := by
    simpa [List.length_eq_zero] using hr
  simp [runApp, hp, h0]

/-- Witness for C3 at a concrete postal code and record set. -/
theorem claim_c3_witness :
    runApp "12345" [sampleRec] =
      Outcome.rendered
        (remove_outliers (processRecords [sampleRec]).1 [ConvRecord.gwpCol])
        (processRecords [sampleRec]).2 :=
  claim_c3 "12345" [sampleRec] (by decide) (by simp)

/-- C7: the failure handling is exactly two conditional checks that
warn and halt: an invalid postal code stops the app before any
processing, and an empty query result stops it before normalization,
filtering or visualization. -/
theorem claim_c7 :
    (∀ (postal_code : String) (mat_records : List RawRecord),
        is_valid_postal_code postal_code = false →
        runApp postal_code mat_records = Outcome.stoppedInvalidPostal) ∧
    (∀ (postal_code : String) (mat_records : List RawRecord),
        is_valid_postal_code postal_code = true → mat_records.length = 0 →
        runApp postal_code mat_records = Outcome.stoppedNoRecords) := by
  constructor
  · intro p rs h
    simp [runApp, h]
  · intro p rs h h0
    simp [runApp, h, h0]

/-- Witness for C7: a malformed postal code stops the app, and a valid
code with an empty query result stops it too. -/
theorem claim_c7_witness :
    runApp "12a45" [sampleRec] = Outcome.stoppedInvalidPostal ∧
    runApp "12345" [] = Outcome.stoppedNoRecords :=
  ⟨claim_c7.1 "12a45" [sampleRec] (by decide),
   claim_c7.2 "12345" [] (by decide) rfl⟩

/-- C9: a record whose unit token is not `MPa`, `psi` or `ksi` is
silently skipped: removing it from the record list changes neither the
converted records nor the emitted warnings. -/
theorem claim_c9 (pre post : List RawRecord) (r : RawRecord)
    (h1 : r.strength_unit ≠ "MPa") (h2 : r.strength_unit ≠ "psi")
    (h3 : r.strength_unit ≠ "ksi") :
    processRecords (pre ++ r :: post) = processRecords (pre ++ post) := by
  have hc : convStrength r = none := by
    simp [convStrength, h1, h2, h3]
  unfold processRecords
  rw [List.foldl_append, List.foldl_append, List.foldl_cons]
  rw [show step (List.foldl step ([], []) pre) r = List.foldl step ([], []) pre from by
    rw [step, hc]]

/-- Witness for C9 at a record with unit `kip`. -/
theorem claim_c9_witness :
    processRecords ([sampleRec] ++ badUnitRec :: []) = processRecords ([sampleRec] ++ []) :=
  claim_c9 [sampleRec] [] badUnitRec (by decide) (by decide) (by decide)

/-- Helper: the converted-records component of one loop iteration does
not depend on the `missing_location_data` accumulator. -/
theorem step_fst (rec : RawRecord) (c : List ConvRecord) (w w2 : List String) :
    (step (c, w) rec).1 = (step (c, w2) rec).1 := by
  rcases hc : convStrength rec with _ | conc
  · rw [step, hc, step, hc]
  · rw [step, hc, step, hc]
    rcases rec.latitude with _ | lat <;> rcases rec.longitude with _ | lng <;>
      simp only [] <;> first
      | rfl
      | (split <;> split <;> rfl)

/-- Helper: the converted-records component of the whole loop does not
depend on the initial `missing_location_data`. -/
theorem foldl_fst_indep (recs : List RawRecord) :
    ∀ (c : List ConvRecord) (w w2 : List String),
      (List.foldl step (c, w) recs).1 = (List.foldl step (c, w2) recs).1 := by
  induction recs with
  | nil => intro c w w2; rfl
  | cons r rs ih =>
      intro c w w2
      simp only [List.foldl_cons]
      have hf : (step (c, w) r).1 = (step (c, w2) r).1 := step_fst r c w w2
      calc (List.foldl step (step (c, w) r) rs).1
          = (List.foldl step ((step (c, w) r).1, (step (c, w) r).2) rs).1 := by
            rw [Prod.mk.eta]
        _ = (List.foldl step ((step (c, w2) r).1, (step (c, w) r).2) rs).1 := by rw [hf]
        _ = (List.foldl step ((step (c, w2) r).1, (step (c, w2) r).2) rs).1 := ih _ _ _
        _ = (List.foldl step (step (c, w2) r) rs).1 := by rw [Prod.mk.eta]

/-- Helper: the loop preserves distinctness of the recorded
missing-location plant names. -/
theorem foldl_snd_nodup (recs : List RawRecord) :
    ∀ (c : List ConvRecord) (w : List String), w.Nodup →
      (List.foldl step (c, w) recs).2.Nodup := by
  induction recs with
  | nil => intro c w hw; exact hw
  | cons r rs ih =>
      intro c w hw
      simp only [List.foldl_cons]
      have h2 : ((step (c, w) r).2).Nodup := by
        rcases hc : convStrength r with _ | conc
        · rw [step, hc]; exact hw
        · rw [step, hc]
          rcases r.latitude with _ | lat <;> rcases r.longitude with _ | lng <;>
            simp only []
          · split
            · exact hw
            · next hnot => simp [List.nodup_append, hw, hnot]
          · split
            · exact hw
            · next hnot => simp [List.nodup_append, hw, hnot]
          · split
            · exact hw
            · next hnot => simp [List.nodup_append, hw, hnot]
          · exact hw
      rw [show step (c, w) r = ((step (c, w) r).1, (step (c, w) r).2) from
        (Prod.mk.eta).symm]
      exact ih _ _ h2

/-- C10: a record whose plant metadata lacks a latitude or a longitude
contributes no converted record, and the missing-location warning is
emitted at most once per distinct plant name over the whole record
set. -/
theorem claim_c10 :
    (∀ (pre post : List RawRecord) (r : RawRecord),
        r.latitude = Option.none ∨ r.longitude = Option.none →
        (processRecords (pre ++ r :: post)).1 = (processRecords (pre ++ post)).1) ∧
    (∀ mat_records : List RawRecord, (processRecords mat_records).2.Nodup) := by
  constructor
  · intro pre post r hr
    unfold processRecords
    rw [List.foldl_append, List.foldl_append, List.foldl_cons]
    have hstep : (step (List.foldl step ([], []) pre) r).1
        = (List.foldl step ([], []) pre).1 := by
      rcases hc : convStrength r with _ | conc
      · rw [step, hc]
      · rw [step, hc]
        rcases hlat : r.latitude with _ | lat
        · simp only [hlat]
          split <;> rfl
        · rcases hlng : r.longitude with _ | lng
          · simp only [hlat, hlng]
            split <;> rfl
          · rcases hr with h | h
            · rw [hlat] at h; exact absurd h (by simp)
            · rw [hlng] at h; exact absurd h (by simp)
    calc (List.foldl step (step (List.foldl step ([], []) pre) r) post).1
        = (List.foldl step ((step (List.foldl step ([], []) pre) r).1,
            (step (List.foldl step ([], []) pre) r).2) post).1 := by rw [Prod.mk.eta]
      _ = (List.foldl step ((List.foldl step ([], []) pre).1,
            (step (List.foldl step ([], []) pre) r).2) post).1 := by rw [hstep]
      _ = (List.foldl step ((List.foldl step ([], []) pre).1,
            (List.foldl step ([], []) pre).2) post).1 := foldl_fst_indep post _ _ _
      _ = (List.foldl step (List.foldl step ([], []) pre) post).1 := by rw [Prod.mk.eta]
  · intro recs
    exact foldl_snd_nodup recs [] [] List.nodup_nil

/-- Witness for C10 at a record lacking a latitude. -/
theorem claim_c10_witness :
    (processRecords ([sampleRec] ++ noLocRec :: [])).1
      = (processRecords ([sampleRec] ++ [])).1 :=
  claim_c10.1 [sampleRec] [] noLocRec (Or.inl rfl)
